import Mathlib

/-!
Shallow embedding of the token price-resolution program (src/index.js,
second driver: V3 factory + tick pricing): address normalization, token
metadata, PancakeSwap V2 path probing, PancakeSwap V3 factory and tick
pricing, the DexScreener aggregator client, and the orchestrating
getTokenPrice flow.  Remote collaborators (JSON-RPC contract reads, HTTP)
are modelled as a read-only environment of deterministic oracles, and every
remote call issued is recorded in an explicit trace.  JavaScript floating
point numbers are modelled as exact rationals; JavaScript strings as Lean
strings.
-/

namespace TokenPrice

/-- Models String.prototype.toLowerCase restricted to ASCII letters (the
only characters relevant to hex addresses and mode strings). -/
def lcChar (c : Char) : Char :=
  if c = 'A' then 'a' else if c = 'B' then 'b' else if c = 'C' then 'c'
  else if c = 'D' then 'd' else if c = 'E' then 'e' else if c = 'F' then 'f'
  else if c = 'G' then 'g' else if c = 'H' then 'h' else if c = 'I' then 'i'
  else if c = 'J' then 'j' else if c = 'K' then 'k' else if c = 'L' then 'l'
  else if c = 'M' then 'm' else if c = 'N' then 'n' else if c = 'O' then 'o'
  else if c = 'P' then 'p' else if c = 'Q' then 'q' else if c = 'R' then 'r'
  else if c = 'S' then 's' else if c = 'T' then 't' else if c = 'U' then 'u'
  else if c = 'V' then 'v' else if c = 'W' then 'w' else if c = 'X' then 'x'
  else if c = 'Y' then 'y' else if c = 'Z' then 'z' else c

/-- Models String.prototype.toUpperCase restricted to ASCII letters. -/
def ucChar (c : Char) : Char :=
  if c = 'a' then 'A' else if c = 'b' then 'B' else if c = 'c' then 'C'
  else if c = 'd' then 'D' else if c = 'e' then 'E' else if c = 'f' then 'F'
  else if c = 'g' then 'G' else if c = 'h' then 'H' else if c = 'i' then 'I'
  else if c = 'j' then 'J' else if c = 'k' then 'K' else if c = 'l' then 'L'
  else if c = 'm' then 'M' else if c = 'n' then 'N' else if c = 'o' then 'O'
  else if c = 'p' then 'P' else if c = 'q' then 'Q' else if c = 'r' then 'R'
  else if c = 's' then 'S' else if c = 't' then 'T' else if c = 'u' then 'U'
  else if c = 'v' then 'V' else if c = 'w' then 'W' else if c = 'x' then 'X'
  else if c = 'y' then 'Y' else if c = 'z' then 'Z' else c

/-- The uppercase ASCII letters, in the order tested by `lcChar`. -/
def upperAZ : List Char :=
  ['A','B','C','D','E','F','G','H','I','J','K','L','M',
   'N','O','P','Q','R','S','T','U','V','W','X','Y','Z']

/-- The lowercase ASCII letters, in the order tested by `ucChar`. -/
def lowerAZ : List Char :=
  ['a','b','c','d','e','f','g','h','i','j','k','l','m',
   'n','o','p','q','r','s','t','u','v','w','x','y','z']

/-- Lowercase a whole string (mode.toLowerCase() in the source). -/
def toLowerStr (s : String) : String := String.mk (s.data.map lcChar)

/-- Uppercase a whole string (for case-variant statements). -/
def toUpperStr (s : String) : String := String.mk (s.data.map ucChar)

/-- A lowercase hexadecimal digit. -/
def isLowerHex (c : Char) : Bool :=
  (('0' ≤ c) && (c ≤ '9')) || (('a' ≤ c) && (c ≤ 'f'))

/-- A hexadecimal digit in either case. -/
def isHexChar (c : Char) : Bool :=
  isLowerHex c ||
    (c == 'A' || c == 'B' || c == 'C' || c == 'D' || c == 'E' || c == 'F')

/-- Core of address validation: expects an already-lowercased character
list; accepts a 0x-prefixed 40-hex-digit identifier and returns the digit
list. -/
def addrCore (l : List Char) : Option (List Char) :=
  match l with
  | c0 :: c1 :: rest =>
    if (c0 == '0') && (c1 == 'x') && (rest.length == 40) && rest.all isLowerHex
    then some rest else none
  | _ => none

/-- Modelled from the spec: formatAddress delegates to ethers.getAddress,
an external library whose source is not part of this repository.  Per the
spec it accepts a 20-byte hex identifier in any case, fails (throws) on any
other input, and returns a canonical checksummed form that depends only on
the underlying bytes.  The checksummed recapitalisation (a keccak-based,
byte-determined choice of letter case) is modelled by the all-lowercase
representative; failure is modelled as `none`. -/
def formatAddress (s : String) : Option String :=
  (addrCore (s.data.map lcChar)).map (fun rest => String.mk ('0' :: 'x' :: rest))

/-- A well-formed 20-byte hex address: 0x or 0X prefix followed by exactly
40 hex digits in either case. -/
def wellFormedAddress (s : String) : Bool :=
  match s.data with
  | c0 :: c1 :: rest =>
    (c0 == '0') && (c1 == 'x' || c1 == 'X') && (rest.length == 40) &&
      rest.all isHexChar
  | _ => false

lemma lcChar_not_upper {c : Char} (h : c ∉ upperAZ) : lcChar c = c := by
  simp only [upperAZ, List.mem_cons, not_or, List.not_mem_nil] at h
  obtain ⟨hA, hB, hC, hD, hE, hF, hG, hH, hI, hJ, hK, hL, hM,
    hN, hO, hP, hQ, hR, hS, hT, hU, hV, hW, hX, hY, hZ, -⟩ := h
  unfold lcChar
  rw [if_neg hA, if_neg hB, if_neg hC, if_neg hD, if_neg hE, if_neg hF,
    if_neg hG, if_neg hH, if_neg hI, if_neg hJ, if_neg hK, if_neg hL,
    if_neg hM, if_neg hN, if_neg hO, if_neg hP, if_neg hQ, if_neg hR,
    if_neg hS, if_neg hT, if_neg hU, if_neg hV, if_neg hW, if_neg hX,
    if_neg hY, if_neg hZ]

lemma ucChar_not_lower {c : Char} (h : c ∉ lowerAZ) : ucChar c = c := by
  simp only [lowerAZ, List.mem_cons, not_or, List.not_mem_nil] at h
  obtain ⟨hA, hB, hC, hD, hE, hF, hG, hH, hI, hJ, hK, hL, hM,
    hN, hO, hP, hQ, hR, hS, hT, hU, hV, hW, hX, hY, hZ, -⟩ := h
  unfold ucChar
  rw [if_neg hA, if_neg hB, if_neg hC, if_neg hD, if_neg hE, if_neg hF,
    if_neg hG, if_neg hH, if_neg hI, if_neg hJ, if_neg hK, if_neg hL,
    if_neg hM, if_neg hN, if_neg hO, if_neg hP, if_neg hQ, if_neg hR,
    if_neg hS, if_neg hT, if_neg hU, if_neg hV, if_neg hW, if_neg hX,
    if_neg hY, if_neg hZ]

lemma lcChar_idem (c : Char) : lcChar (lcChar c) = lcChar c := by
  by_cases h : c ∈ upperAZ
  · fin_cases h <;> decide
  · rw [lcChar_not_upper h, lcChar_not_upper h]

lemma lcChar_ucChar (c : Char) : lcChar (ucChar c) = lcChar c := by
  by_cases h : c ∈ lowerAZ
  · fin_cases h <;> decide
  · rw [ucChar_not_lower h]

lemma isLowerHex_lcChar (c : Char) : isLowerHex (lcChar c) = isHexChar c := by
  by_cases h : c ∈ upperAZ
  · fin_cases h <;> decide
  · rw [lcChar_not_upper h]
    simp only [upperAZ, List.mem_cons, not_or, List.not_mem_nil] at h
    obtain ⟨hA, hB, hC, hD, hE, hF, -⟩ := h
    simp [isHexChar, beq_eq_false_iff_ne.mpr hA, beq_eq_false_iff_ne.mpr hB,
      beq_eq_false_iff_ne.mpr hC, beq_eq_false_iff_ne.mpr hD,
      beq_eq_false_iff_ne.mpr hE, beq_eq_false_iff_ne.mpr hF]

lemma lcChar_beq_x (c : Char) :
    ((lcChar c) == 'x') = (c == 'x' || c == 'X') := by
  by_cases h : c ∈ upperAZ
  · fin_cases h <;> decide
  · rw [lcChar_not_upper h]
    simp only [upperAZ, List.mem_cons, not_or, List.not_mem_nil] at h
    simp [beq_eq_false_iff_ne.mpr h.2.2.2.2.2.2.2.2.2.2.2.2.2.2.2.2.2.2.2.2.2.2.2.1]

lemma lcChar_beq_zero (c : Char) : ((lcChar c) == '0') = (c == '0') := by
  by_cases h : c ∈ upperAZ
  · fin_cases h <;> decide
  · rw [lcChar_not_upper h]

lemma lcChar_fix_of_isLowerHex {c : Char} (h : isLowerHex c = true) :
    lcChar c = c := by
  by_cases hm : c ∈ upperAZ
  · revert h; fin_cases hm <;> decide
  · exact lcChar_not_upper hm

lemma all_isLowerHex_map_lcChar (l : List Char) :
    (l.map lcChar).all isLowerHex = l.all isHexChar := by
  induction l with
  | nil => rfl
  | cons c tl ih => simp [List.all_cons, isLowerHex_lcChar, ih]

lemma map_lcChar_fix {l : List Char} (h : l.all isLowerHex = true) :
    l.map lcChar = l := by
  induction l with
  | nil => rfl
  | cons c tl ih =>
    simp only [List.all_cons, Bool.and_eq_true] at h
    simp [lcChar_fix_of_isLowerHex h.1, ih h.2]

lemma formatAddress_isSome (s : String) :
    (formatAddress s).isSome = wellFormedAddress s := by
  unfold formatAddress wellFormedAddress
  rcases s.data with _ | ⟨c0, _ | ⟨c1, rest⟩⟩
  · rfl
  · rfl
  · simp only [List.map_cons, addrCore]
    rw [List.length_map, all_isLowerHex_map_lcChar, lcChar_beq_zero, lcChar_beq_x]
    by_cases hC : ((c0 == '0') && (c1 == 'x' || c1 == 'X') && (rest.length == 40)
        && rest.all isHexChar) = true
    · rw [if_pos hC, hC]; rfl
    · rw [if_neg hC]
      simp only [Bool.not_eq_true] at hC
      rw [hC]; rfl

lemma addrCore_eq_some {l r : List Char} (h : addrCore l = some r) :
    l = '0' :: 'x' :: r ∧ r.length = 40 ∧ r.all isLowerHex = true := by
  rcases l with _ | ⟨c0, _ | ⟨c1, rest⟩⟩
  · exact absurd h (by simp [addrCore])
  · exact absurd h (by simp [addrCore])
  · simp only [addrCore] at h
    by_cases hc : ((c0 == '0') && (c1 == 'x') && (rest.length == 40) && rest.all isLowerHex) = true
    · rw [if_pos hc] at h
      simp only [Option.some.injEq] at h
      subst h
      simp only [Bool.and_eq_true, beq_iff_eq] at hc
      obtain ⟨⟨⟨h0, h1⟩, hlen⟩, hall⟩ := hc
      subst h0; subst h1
      exact ⟨rfl, by simpa using hlen, hall⟩
    · rw [if_neg hc] at h
      exact absurd h (by simp)

lemma formatAddress_canonical {s c : String} (h : formatAddress s = some c) :
    formatAddress c = some c := by
  unfold formatAddress at h
  rcases hac : addrCore (s.data.map lcChar) with _ | rest
  · rw [hac] at h; exact absurd h (by simp)
  · rw [hac] at h
    simp only [Option.map_some', Option.some.injEq] at h
    obtain ⟨-, hlen, hall⟩ := addrCore_eq_some hac
    subst h
    unfold formatAddress
    have hdata : (String.mk ('0' :: 'x' :: rest)).data = '0' :: 'x' :: rest := rfl
    rw [hdata]
    simp only [List.map_cons, map_lcChar_fix hall]
    have h0 : lcChar '0' = '0' := by decide
    have hx : lcChar 'x' = 'x' := by decide
    rw [h0, hx]
    simp only [addrCore]
    rw [if_pos (by simp [hlen, hall])]
    rfl

/-- The zero address sentinel (ethers.ZeroAddress), in canonical form. -/
def ZeroAddress : String := "0x0000000000000000000000000000000000000000"

/-- PancakeSwap V2 router address (canonicalized at module load). -/
def PANCAKE_ROUTER_V2 : String :=
  (formatAddress "0x10ED43C718714eb63d5aA57B78B54704E256024E").getD ""

/-- PancakeSwap V3 factory address (canonicalized at module load). -/
def PANCAKE_V3_FACTORY : String :=
  (formatAddress "0x0BFbCF9fa4f9C56B0F40a671Ad40E0805A091865").getD ""

/-- Wrapped BNB token address (canonicalized at module load). -/
def WBNB : String :=
  (formatAddress "0xbb4CdB9CBd36B01bD1cBaEBF2De08d9173bc095c").getD ""

/-- BSC USDT token address (canonicalized at module load). -/
def USDT : String :=
  (formatAddress "0x55d398326f99059fF775485246999027B3197955").getD ""

/-- BUSD token address (canonicalized at module load). -/
def BUSD : String :=
  (formatAddress "0xe9e7CEA3DedcA5984780Bafc599bD69ADd087D56").getD ""

/-- USDC token address (canonicalized at module load). -/
def USDC : String :=
  (formatAddress "0x8AC76a51cc950d9822D68b83fE1Ad97B32Cd580d").getD ""

/-- UGO token address (canonicalized at module load). -/
def UGO : String :=
  (formatAddress "0x66a2ed2F04BC7D2a03785DD04261A2FA595a5839").getD ""

/-- The static known-pool table KNOWN_V3_POOLS.  Its single entry is
commented out in the source, so every lookup misses. -/
def KNOWN_V3_POOLS : String → Option String := fun _ => none

/-- ethers.parseUnits of the string "1" with the given decimal count:
one whole unit of a token with that many decimals. -/
def parseUnitsOne (decimals : Nat) : Nat := 10 ^ decimals

/-- Remove trailing zero digits, keeping at least one digit. -/
def trimTrailingZeros (l : List Char) : List Char :=
  let r := l.reverse.dropWhile (fun c => c == '0')
  if r.isEmpty then ['0'] else r.reverse

/-- ethers.formatUnits: render an integer amount as a decimal string scaled
down by 10^decimals (fractional part zero-padded, trailing zeros trimmed to
at least one digit). -/
def formatUnits (value : Nat) (decimals : Nat) : String :=
  if decimals = 0 then String.mk (Nat.toDigits 10 value)
  else
    let whole := value / 10 ^ decimals
    let fracDigits := Nat.toDigits 10 (value % 10 ^ decimals)
    let padded := List.replicate (decimals - fracDigits.length) '0' ++ fracDigits
    String.mk (Nat.toDigits 10 whole ++ '.' :: trimTrailingZeros padded)

/-- Integer power of a rational, models Math.pow with integer exponent. -/
def qpow (q : ℚ) : Int → ℚ
  | Int.ofNat n => q ^ n
  | Int.negSucc n => (q ^ (n + 1))⁻¹

/-- priceFromTick from the source: price = 1.0001^tick, optionally
inverted.  The float 1.0001 is modelled by the exact rational 10001/10000. -/
def priceFromTick (tick : Int) (invert : Bool) : ℚ :=
  let price := qpow (10001 / 10000 : ℚ) tick
  if invert then 1 / price else price

/-- A token metadata descriptor (symbol, name, decimals). -/
structure TokenInfo where
  symbol : String
  name : String
  decimals : Nat
deriving DecidableEq, Repr

/-- On-chain state read from a V3 pool: token0, token1 and the current
tick from slot0. -/
structure PoolState where
  token0 : String
  token1 : String
  tick : Int
deriving DecidableEq, Repr

/-- One DexScreener trading-pair record: an optional liquidity figure and
optional native/USD price fields. -/
structure DexPair where
  liquidityUsd : Option ℚ
  priceNative : Option String
  priceUsd : Option String
deriving DecidableEq, Repr

/-- A parsed DexScreener response body; `pairs := none` models a JSON body
without the expected pairs collection. -/
structure DexResponse where
  pairs : Option (List DexPair)
deriving DecidableEq, Repr

/-- Outcome of a raw HTTP GET as seen by fetchAPI. -/
inductive HttpOutcome where
  | response (status : Nat) (body : String)
  | netError
  | timedOut
deriving DecidableEq, Repr

/-- Failure reasons with which fetchAPI rejects. -/
inductive FetchErr where
  | badStatus (code : Nat)
  | parseFailure
  | timeout
  | netError
deriving DecidableEq, Repr

/-- One remote call issued by the program (RPC contract read or HTTP GET). -/
inductive Call where
  | getAmountsOut (amountIn : Nat) (path : List String)
  | symbolRead (token : String)
  | nameRead (token : String)
  | decimalsRead (token : String)
  | getPool (tokenA tokenB : String) (fee : Nat)
  | poolRead (pool : String)
  | httpGet (url : String)
deriving DecidableEq, Repr

/-- A price value: a string (as in the JS record) or the exact rational
standing for a JS number later stringified. -/
inductive PriceVal where
  | str (s : String)
  | num (q : ℚ)
deriving DecidableEq, Repr

/-- The result record of getTokenPrice: {price, version, path}. -/
structure PriceResult where
  price : Option PriceVal
  version : Option String
  path : Option (List String)
deriving DecidableEq, Repr

/-- The Unresolved sentinel {price:null, version:null, path:null}. -/
def unresolvedResult : PriceResult := ⟨none, none, none⟩

/-- Errors that can reach getTokenPrice's top-level catch handler. -/
inductive ResolveError where
  | invalidAddress
  | runtimeError
deriving DecidableEq, Repr

/-- The deterministic oracle environment standing for all remote
collaborators: V2 router, token contracts, V3 factory and pools, raw HTTP
and JSON parsing.  `none`/error values model reverts and failures. -/
structure Env where
  router : Nat → List String → Option (List Nat)
  tokenSymbol : String → Option String
  tokenName : String → Option String
  tokenDecimals : String → Option Nat
  getPool : String → String → Nat → String
  poolState : String → Option PoolState
  http : String → HttpOutcome
  parseDex : String → Option DexResponse

/-- The fixed HTTP request timeout installed by fetchAPI, in milliseconds. -/
def REQUEST_TIMEOUT_MS : Nat := 5000

/-- fetchAPI: HTTP GET with status check, then JSON parse; every failure
rejects with a FetchErr. -/
def fetchAPI (env : Env) (url : String) : Except FetchErr DexResponse :=
  match env.http url with
  | HttpOutcome.netError => Except.error FetchErr.netError
  | HttpOutcome.timedOut => Except.error FetchErr.timeout
  | HttpOutcome.response status body =>
    if status ≠ 200 then Except.error (FetchErr.badStatus status)
    else
      match env.parseDex body with
      | none => Except.error FetchErr.parseFailure
      | some d => Except.ok d

/-- getTokenInfo: canonicalize the address, then read symbol, name and
decimals jointly (Promise.all); the catch handler turns any failure —
including a malformed address — into the default placeholder descriptor. -/
def getTokenInfo (env : Env) (tokenAddress : String) : TokenInfo × List Call :=
  match formatAddress tokenAddress with
  | none => (⟨"UNKNOWN", "Unknown Token", 18⟩, [])
  | some a =>
    let calls := [Call.symbolRead a, Call.nameRead a, Call.decimalsRead a]
    match env.tokenSymbol a, env.tokenName a, env.tokenDecimals a with
    | some s, some n, some d => (⟨s, n, d⟩, calls)
    | _, _, _ => (⟨"UNKNOWN", "Unknown Token", 18⟩, calls)

/-- checkPathLiquidityV2: a simulated getAmountsOut for one unit of the
input; a revert (none) means the path has no liquidity. -/
def checkPathLiquidityV2 (env : Env) (path : List String) (decimals : Nat) :
    Bool × List Call :=
  ((env.router (parseUnitsOne decimals) path).isSome,
   [Call.getAmountsOut (parseUnitsOne decimals) path])

/-- The symbol displayed for one address of a V2 path (the inline mapping
in getTokenPrice's V2 loop). -/
def pathSymbol (env : Env) (t sym : String) (addr : String) : String × List Call :=
  if addr = WBNB then ("WBNB", [])
  else if addr = USDT then ("USDT", [])
  else if addr = BUSD then ("BUSD", [])
  else if addr = USDC then ("USDC", [])
  else if addr = t then (sym, [])
  else
    let r := getTokenInfo env addr
    (r.1.symbol, r.2)

/-- Symbols for a whole V2 path, with the metadata calls they issue. -/
def pathSymbolsOf (env : Env) (t sym : String) (path : List String) :
    List String × List Call :=
  let rs := path.map (pathSymbol env t sym)
  (rs.map Prod.fst, (rs.map Prod.snd).flatten)

/-- The V2 probing loop of getTokenPrice: candidates in order; the first
path whose liquidity check succeeds is re-quoted and its last output amount
becomes the price (formatted at 18 decimals).  `Except.error` models a
throw reaching getTokenPrice's catch (e.g. a malformed router response). -/
def v2Loop (env : Env) (t sym : String) (decimals : Nat) :
    List (List String) → Except ResolveError (Option PriceResult) × List Call
  | [] => (Except.ok none, [])
  | path :: rest =>
    let chk := checkPathLiquidityV2 env path decimals
    if chk.1 then
      let amt := parseUnitsOne decimals
      let priceCall := Call.getAmountsOut amt path
      match env.router amt path with
      | none => (Except.error ResolveError.runtimeError, chk.2 ++ [priceCall])
      | some amounts =>
        match amounts[path.length - 1]? with
        | none => (Except.error ResolveError.runtimeError, chk.2 ++ [priceCall])
        | some q =>
          let syms := pathSymbolsOf env t sym path
          (Except.ok (some ⟨some (PriceVal.str (formatUnits q 18)), some "v2",
            some syms.1⟩), chk.2 ++ priceCall :: syms.2)
    else
      let r := v2Loop env t sym decimals rest
      (r.1, chk.2 ++ r.2)

/-- getKnownPoolAddress: consults the (empty) static table for the UGO-BNB
pair; always misses. -/
def getKnownPoolAddress (tokenA tokenB : String) : Option String :=
  match formatAddress tokenA with
  | none => none
  | some a =>
    match formatAddress tokenB with
    | none => none
    | some b =>
      if (a = UGO ∧ b = WBNB) ∨ (a = WBNB ∧ b = UGO) then KNOWN_V3_POOLS "UGO-BNB"
      else none

/-- The fixed V3 fee tiers probed, in order, in the factory's fee unit
(hundredths of a basis point): 0.01%, 0.05%, 0.25%, 1%. -/
def feeTiers : List Nat := [100, 500, 2500, 10000]

/-- The factory-probing loop of tryGetPriceV3: for each fee tier ask the
factory for a pool; a zero address means no pool at this tier; otherwise
read token0/token1/slot0 and price from the tick, inverting when the input
token is the pool's token1.  A failed pool read continues with the next
tier. -/
def v3Loop (env : Env) (tIn tOut : String) :
    List Nat → Option ℚ × List Call
  | [] => (none, [])
  | fee :: rest =>
    let pool := env.getPool tIn tOut fee
    let c := Call.getPool tIn tOut fee
    if pool = ZeroAddress then
      let r := v3Loop env tIn tOut rest
      (r.1, c :: r.2)
    else
      match formatAddress pool with
      | none =>
        let r := v3Loop env tIn tOut rest
        (r.1, c :: r.2)
      | some p =>
        match env.poolState p with
        | none =>
          let r := v3Loop env tIn tOut rest
          (r.1, c :: Call.poolRead p :: r.2)
        | some st =>
          (some (priceFromTick st.tick (tIn == st.token1)), [c, Call.poolRead p])

/-- tryGetPriceV3: canonicalize both tokens, try the known-pool override
(always a miss, its table is empty), then the factory fee-tier loop.  Any
top-level failure is caught and becomes `none`. -/
def tryGetPriceV3 (env : Env) (tokenIn tokenOut : String) : Option ℚ × List Call :=
  match formatAddress tokenIn with
  | none => (none, [])
  | some tIn =>
    match formatAddress tokenOut with
    | none => (none, [])
    | some tOut =>
      match getKnownPoolAddress tIn tOut with
      | some kp =>
        match env.poolState kp with
        | some st =>
          (some (priceFromTick st.tick (tIn == st.token1)), [Call.poolRead kp])
        | none =>
          let r := v3Loop env tIn tOut feeTiers
          (r.1, Call.poolRead kp :: r.2)
      | none => v3Loop env tIn tOut feeTiers

/-- Liquidity of a DexScreener pair, a missing figure counting as zero. -/
def liqOf (p : DexPair) : ℚ := p.liquidityUsd.getD 0

/-- Descending-by-liquidity order used to sort DexScreener pairs. -/
def liqGE (a b : DexPair) : Prop := liqOf b ≤ liqOf a

instance : DecidableRel liqGE := fun a b =>
  inferInstanceAs (Decidable (liqOf b ≤ liqOf a))

/-- The DexScreener API URL for a token address. -/
def dexScreenerUrl (a : String) : String :=
  "https://api.dexscreener.com/latest/dex/tokens/" ++ a

/-- getPriceDexScreener: fetch the pair collection, sort descending by
liquidity (stable; missing liquidity treated as zero), take the top record
and return its native or USD price per the mode; every failure path
(including a thrown fetch error, caught locally) yields `none`. -/
def getPriceDexScreener (env : Env) (tokenAddress sym mode : String) :
    Option String × List Call :=
  match formatAddress tokenAddress with
  | none => (none, [])
  | some a =>
    let calls := [Call.httpGet (dexScreenerUrl a)]
    match fetchAPI env (dexScreenerUrl a) with
    | Except.error _ => (none, calls)
    | Except.ok data =>
      match data.pairs with
      | none => (none, calls)
      | some pairs =>
        if 0 < pairs.length then
          match (List.insertionSort liqGE pairs).head? with
          | none => (none, calls)
          | some best =>
            if toLowerStr mode = "bnb" then
              match best.priceNative with
              | some p => (some p, calls)
              | none => (none, calls)
            else if toLowerStr mode = "usdt" then
              match best.priceUsd with
              | some p => (some p, calls)
              | none => (none, calls)
            else (none, calls)
        else (none, calls)

/-- The quote token selected from the mode string: a case-insensitive
"usdt" selects USDT, every other string selects WBNB. -/
def quoteTokenOf (mode : String) : String :=
  if toLowerStr mode = "usdt" then USDT else WBNB

/-- The quote-token label used in reported paths. -/
def quoteLabel (mode : String) : String :=
  if toLowerStr mode = "usdt" then "USDT" else "WBNB"

/-- The four V2 candidate paths, in the fixed order of the source. -/
def pathsV2For (t quoteToken : String) : List (List String) :=
  [[t, quoteToken], [t, WBNB, quoteToken], [t, BUSD, quoteToken],
   [t, USDC, quoteToken]]

/-- The V3 stage of getTokenPrice: for a USDT quote try the direct pair,
then compose input→WBNB with WBNB→USDT (multiplying the two prices);
otherwise just input→WBNB. -/
def v3Stage (env : Env) (t sym mode : String) : Option PriceVal × List Call :=
  if toLowerStr mode = "usdt" then
    let a := tryGetPriceV3 env t USDT
    match a.1 with
    | some q => (some (PriceVal.num q), a.2)
    | none =>
      let b := tryGetPriceV3 env t WBNB
      match b.1 with
      | none => (none, a.2 ++ b.2)
      | some qb =>
        let c := tryGetPriceV3 env WBNB USDT
        match c.1 with
        | none => (none, a.2 ++ b.2 ++ c.2)
        | some qu => (some (PriceVal.num (qb * qu)), a.2 ++ b.2 ++ c.2)
  else
    let b := tryGetPriceV3 env t WBNB
    match b.1 with
    | none => (none, b.2)
    | some qb => (some (PriceVal.num qb), b.2)

/-- The stages of getTokenPrice after a failed V2 probe: V3 (when enabled),
then the DexScreener fallback, then the Unresolved sentinel. -/
def afterV2 (env : Env) (t sym mode : String) (tryV3flag : Bool) :
    Except ResolveError PriceResult × List Call :=
  let v3 := if tryV3flag then v3Stage env t sym mode else (none, [])
  match v3.1 with
  | some pv =>
    (Except.ok ⟨some pv, some "v3", some [sym, quoteLabel mode]⟩, v3.2)
  | none =>
    let ds := getPriceDexScreener env t sym mode
    match ds.1 with
    | some p =>
      (Except.ok ⟨some (PriceVal.str p), some "dexscreener",
        some [sym, quoteLabel mode]⟩, v3.2 ++ ds.2)
    | none => (Except.ok unresolvedResult, v3.2 ++ ds.2)

/-- The main flow of getTokenPrice for a non-special token: metadata fetch
(degrading, never failing), the V2 probe loop, then the later stages. -/
def mainFlow (env : Env) (t mode : String) (tryV3flag : Bool) :
    Except ResolveError PriceResult × List Call :=
  let infoC := getTokenInfo env t
  let info := infoC.1
  let v2 := v2Loop env t info.symbol info.decimals
    (pathsV2For t (quoteTokenOf mode))
  match v2.1 with
  | Except.error e => (Except.error e, infoC.2 ++ v2.2)
  | Except.ok (some r) => (Except.ok r, infoC.2 ++ v2.2)
  | Except.ok none =>
    let rest := afterV2 env t info.symbol mode tryV3flag
    (rest.1, infoC.2 ++ v2.2 ++ rest.2)

/-- The body of getTokenPrice's try block: address canonicalization (whose
failure raises InvalidAddress), the WBNB / USDT identity short-circuits,
then the main flow. -/
def getTokenPriceBody (env : Env) (tokenAddress mode : String)
    (tryV3flag : Bool) : Except ResolveError PriceResult × List Call :=
  match formatAddress tokenAddress with
  | none => (Except.error ResolveError.invalidAddress, [])
  | some t =>
    if t = WBNB then
      if toLowerStr mode = "usdt" then
        let amt := parseUnitsOne 18
        let call := Call.getAmountsOut amt [WBNB, USDT]
        match env.router amt [WBNB, USDT] with
        | none => (Except.error ResolveError.runtimeError, [call])
        | some amounts =>
          match amounts[1]? with
          | none => (Except.error ResolveError.runtimeError, [call])
          | some a1 =>
            (Except.ok ⟨some (PriceVal.str (formatUnits a1 18)), some "v2",
              some ["WBNB", "USDT"]⟩, [call])
      else
        (Except.ok ⟨some (PriceVal.str "1"), some "n/a", some ["WBNB"]⟩, [])
    else if t = USDT ∧ toLowerStr mode = "bnb" then
      let amt := parseUnitsOne 18
      let call := Call.getAmountsOut amt [USDT, WBNB]
      match env.router amt [USDT, WBNB] with
      | none => (Except.error ResolveError.runtimeError, [call])
      | some amounts =>
        match amounts[1]? with
        | none => (Except.error ResolveError.runtimeError, [call])
        | some a1 =>
          (Except.ok ⟨some (PriceVal.str (formatUnits a1 18)), some "v2",
            some ["USDT", "WBNB"]⟩, [call])
    else mainFlow env t mode tryV3flag

/-- getTokenPrice: the try body wrapped in the catch-all handler, which
turns every raised error — InvalidAddress included — into the Unresolved
sentinel record. -/
def getTokenPrice (env : Env) (tokenAddress mode : String) (tryV3flag : Bool) :
    PriceResult × List Call :=
  let body := getTokenPriceBody env tokenAddress mode tryV3flag
  match body.1 with
  | Except.ok r => (r, body.2)
  | Except.error _ => (unresolvedResult, body.2)

lemma v2Loop_cons_fail {env : Env} {t sym : String} {d : Nat}
    {p : List String} {rest : List (List String)}
    (h : env.router (parseUnitsOne d) p = none) :
    v2Loop env t sym d (p :: rest) =
      ((v2Loop env t sym d rest).1,
       Call.getAmountsOut (parseUnitsOne d) p :: (v2Loop env t sym d rest).2) := by
  simp [v2Loop, checkPathLiquidityV2, h]

lemma v2Loop_cons_success {env : Env} {t sym : String} {d : Nat}
    {p : List String} {rest : List (List String)} {as : List Nat} {q : Nat}
    (h : env.router (parseUnitsOne d) p = some as)
    (hq : as[p.length - 1]? = some q) :
    v2Loop env t sym d (p :: rest) =
      (Except.ok (some ⟨some (PriceVal.str (formatUnits q 18)), some "v2",
        some (pathSymbolsOf env t sym p).1⟩),
       Call.getAmountsOut (parseUnitsOne d) p ::
         Call.getAmountsOut (parseUnitsOne d) p :: (pathSymbolsOf env t sym p).2) := by
  simp [v2Loop, checkPathLiquidityV2, h, hq]

lemma v2Loop_all_fail {env : Env} {t sym : String} {d : Nat} :
    ∀ {paths : List (List String)},
    (∀ p ∈ paths, env.router (parseUnitsOne d) p = none) →
    (v2Loop env t sym d paths).1 = Except.ok none
  | [], _ => rfl
  | p :: rest, h => by
    rw [v2Loop_cons_fail (h p (List.mem_cons_self p rest))]
    exact v2Loop_all_fail (fun p2 hp2 => h p2 (List.mem_cons_of_mem p hp2))

lemma v2Loop_first_success {env : Env} {t sym : String} {d : Nat}
    {p : List String} {as : List Nat} {q : Nat}
    (hp : env.router (parseUnitsOne d) p = some as)
    (hq : as[p.length - 1]? = some q) :
    ∀ {pre post : List (List String)},
    (∀ p2 ∈ pre, env.router (parseUnitsOne d) p2 = none) →
    (v2Loop env t sym d (pre ++ p :: post)).1 =
      Except.ok (some ⟨some (PriceVal.str (formatUnits q 18)), some "v2",
        some (pathSymbolsOf env t sym p).1⟩)
  | [], _, _ => by
    rw [List.nil_append, v2Loop_cons_success hp hq]
  | p2 :: pre, post, h => by
    rw [List.cons_append, v2Loop_cons_fail (h p2 (List.mem_cons_self p2 pre))]
    exact v2Loop_first_success hp hq (fun p3 hp3 => h p3 (List.mem_cons_of_mem p2 hp3))

lemma v2Loop_none_all_fail {env : Env} {t sym : String} {d : Nat} :
    ∀ {paths : List (List String)},
    (v2Loop env t sym d paths).1 = Except.ok none →
    ∀ p ∈ paths, env.router (parseUnitsOne d) p = none
  | [], _, p, hp => absurd hp (List.not_mem_nil p)
  | p0 :: rest, h, p, hp => by
    rcases hr : env.router (parseUnitsOne d) p0 with _ | as
    · rw [v2Loop_cons_fail hr] at h
      rcases List.mem_cons.mp hp with hh | ht
      · exact hh ▸ hr
      · exact v2Loop_none_all_fail h p ht
    · exfalso
      rcases hg : as[p0.length - 1]? with _ | q
      · simp [v2Loop, checkPathLiquidityV2, hr, hg] at h
      · rw [v2Loop_cons_success hr hg] at h
        simp at h

lemma v2Loop_trace_cons {env : Env} {t sym : String} {d : Nat}
    {p : List String} {rest : List (List String)} :
    ∃ tail, (v2Loop env t sym d (p :: rest)).2 =
      Call.getAmountsOut (parseUnitsOne d) p :: tail := by
  rcases hr : env.router (parseUnitsOne d) p with _ | as
  · rw [v2Loop_cons_fail hr]
    exact ⟨(v2Loop env t sym d rest).2, rfl⟩
  · rcases hg : as[p.length - 1]? with _ | q
    · refine ⟨[Call.getAmountsOut (parseUnitsOne d) p], ?_⟩
      simp [v2Loop, checkPathLiquidityV2, hr, hg]
    · rw [v2Loop_cons_success hr hg]
      exact ⟨_, rfl⟩

lemma v3Loop_cons_zero {env : Env} {tIn tOut : String} {fee : Nat}
    {rest : List Nat} (h : env.getPool tIn tOut fee = ZeroAddress) :
    v3Loop env tIn tOut (fee :: rest) =
      ((v3Loop env tIn tOut rest).1,
       Call.getPool tIn tOut fee :: (v3Loop env tIn tOut rest).2) := by
  simp [v3Loop, h]

lemma v3Loop_cons_found {env : Env} {tIn tOut : String} {fee : Nat}
    {rest : List Nat} {pool p : String} {st : PoolState}
    (h : env.getPool tIn tOut fee = pool) (hnz : pool ≠ ZeroAddress)
    (hfa : formatAddress pool = some p) (hst : env.poolState p = some st) :
    v3Loop env tIn tOut (fee :: rest) =
      (some (priceFromTick st.tick (tIn == st.token1)),
       [Call.getPool tIn tOut fee, Call.poolRead p]) := by
  simp [v3Loop, h, hnz, hfa, hst]

lemma v3Loop_all_zero {env : Env} {tIn tOut : String} :
    ∀ {fees : List Nat},
    (∀ fee ∈ fees, env.getPool tIn tOut fee = ZeroAddress) →
    (v3Loop env tIn tOut fees).1 = none
  | [], _ => rfl
  | fee :: rest, h => by
    rw [v3Loop_cons_zero (h fee (List.mem_cons_self fee rest))]
    exact v3Loop_all_zero (fun f hf => h f (List.mem_cons_of_mem fee hf))

lemma getKnownPoolAddress_none (tokenA tokenB : String) :
    getKnownPoolAddress tokenA tokenB = none := by
  rcases ha : formatAddress tokenA with _ | a <;>
    rcases hb : formatAddress tokenB with _ | b <;>
      simp [getKnownPoolAddress, KNOWN_V3_POOLS, ha, hb]

lemma tryGetPriceV3_canon {env : Env} {tokenIn tokenOut tIn tOut : String}
    (hin : formatAddress tokenIn = some tIn)
    (hout : formatAddress tokenOut = some tOut) :
    tryGetPriceV3 env tokenIn tokenOut = v3Loop env tIn tOut feeTiers := by
  simp only [tryGetPriceV3, hin, hout, getKnownPoolAddress_none]

lemma getTokenInfo_default {env : Env} {a a' : String}
    (hfa : formatAddress a = some a')
    (h : env.tokenSymbol a' = none ∨ env.tokenName a' = none ∨
      env.tokenDecimals a' = none) :
    (getTokenInfo env a).1 = ⟨"UNKNOWN", "Unknown Token", 18⟩ := by
  simp only [getTokenInfo, hfa]
  rcases hs : env.tokenSymbol a' with _ | s <;>
    rcases hn : env.tokenName a' with _ | n <;>
      rcases hd : env.tokenDecimals a' with _ | d <;>
        simp_all

lemma getTokenInfo_calls {env : Env} {a a' : String}
    (hfa : formatAddress a = some a') :
    (getTokenInfo env a).2 =
      [Call.symbolRead a', Call.nameRead a', Call.decimalsRead a'] := by
  simp only [getTokenInfo, hfa]
  rcases env.tokenSymbol a' with _ | s <;>
    rcases env.tokenName a' with _ | n <;>
      rcases env.tokenDecimals a' with _ | d <;> rfl

lemma getTokenPriceBody_mainFlow {env : Env} {raw t mode : String} {f : Bool}
    (h1 : formatAddress raw = some t) (h2 : t ≠ WBNB)
    (h3 : ¬(t = USDT ∧ toLowerStr mode = "bnb")) :
    getTokenPriceBody env raw mode f = mainFlow env t mode f := by
  simp only [getTokenPriceBody, h1]
  rw [if_neg h2, if_neg h3]

lemma getTokenPriceBody_identity {env : Env} {raw mode : String} {f : Bool}
    (h1 : formatAddress raw = some WBNB) (h2 : toLowerStr mode ≠ "usdt") :
    getTokenPriceBody env raw mode f =
      (Except.ok ⟨some (PriceVal.str "1"), some "n/a", some ["WBNB"]⟩, []) := by
  simp only [getTokenPriceBody, h1, if_true]
  rw [if_neg h2]

lemma getTokenPrice_identity {env : Env} {raw mode : String} {f : Bool}
    (h1 : formatAddress raw = some WBNB) (h2 : toLowerStr mode ≠ "usdt") :
    getTokenPrice env raw mode f =
      (⟨some (PriceVal.str "1"), some "n/a", some ["WBNB"]⟩, []) := by
  unfold getTokenPrice
  rw [getTokenPriceBody_identity h1 h2]

instance : IsTotal DexPair liqGE := ⟨fun a b => le_total (liqOf b) (liqOf a)⟩

instance : IsTrans DexPair liqGE := ⟨fun a b c hab hbc => le_trans hbc hab⟩

lemma insertionSort_head_max {l tail : List DexPair} {best : DexPair}
    (h : List.insertionSort liqGE l = best :: tail) :
    best ∈ l ∧ ∀ p ∈ l, liqOf p ≤ liqOf best := by
  have hs := List.sorted_insertionSort liqGE l
  rw [h] at hs
  constructor
  · have hm : best ∈ List.insertionSort liqGE l := by
      rw [h]; exact List.mem_cons_self _ _
    exact (List.mem_insertionSort liqGE).mp hm
  · intro p hp
    have hp2 : p ∈ List.insertionSort liqGE l :=
      (List.mem_insertionSort liqGE).mpr hp
    rw [h] at hp2
    rcases List.mem_cons.mp hp2 with he | ht
    · exact he ▸ le_refl _
    · exact List.rel_of_sorted_cons hs p ht

lemma getPriceDexScreener_fetchFail {env : Env} {raw a sym mode : String}
    {e : FetchErr} (hfa : formatAddress raw = some a)
    (h : fetchAPI env (dexScreenerUrl a) = Except.error e) :
    getPriceDexScreener env raw sym mode =
      (none, [Call.httpGet (dexScreenerUrl a)]) := by
  simp only [getPriceDexScreener, hfa, h]

lemma getPriceDexScreener_noPairs {env : Env} {raw a sym mode : String}
    {d : DexResponse} (hfa : formatAddress raw = some a)
    (h : fetchAPI env (dexScreenerUrl a) = Except.ok d) (hp : d.pairs = none) :
    getPriceDexScreener env raw sym mode =
      (none, [Call.httpGet (dexScreenerUrl a)]) := by
  simp only [getPriceDexScreener, hfa, h, hp]

lemma getPriceDexScreener_emptyPairs {env : Env} {raw a sym mode : String}
    {d : DexResponse} (hfa : formatAddress raw = some a)
    (h : fetchAPI env (dexScreenerUrl a) = Except.ok d)
    (hp : d.pairs = some []) :
    getPriceDexScreener env raw sym mode =
      (none, [Call.httpGet (dexScreenerUrl a)]) := by
  simp [getPriceDexScreener, hfa, h, hp]

lemma getPriceDexScreener_bnb {env : Env} {raw a sym mode : String}
    {d : DexResponse} {l tail : List DexPair} {best : DexPair}
    (hfa : formatAddress raw = some a)
    (h : fetchAPI env (dexScreenerUrl a) = Except.ok d) (hp : d.pairs = some l)
    (hne : 0 < l.length) (hsort : List.insertionSort liqGE l = best :: tail)
    (hmode : toLowerStr mode = "bnb") :
    (getPriceDexScreener env raw sym mode).1 = best.priceNative := by
  simp only [getPriceDexScreener, hfa, h, hp, if_pos hne, hsort,
    List.head?_cons, if_pos hmode]
  rcases best.priceNative with _ | p <;> rfl

lemma getPriceDexScreener_usdt {env : Env} {raw a sym mode : String}
    {d : DexResponse} {l tail : List DexPair} {best : DexPair}
    (hfa : formatAddress raw = some a)
    (h : fetchAPI env (dexScreenerUrl a) = Except.ok d) (hp : d.pairs = some l)
    (hne : 0 < l.length) (hsort : List.insertionSort liqGE l = best :: tail)
    (hmode : toLowerStr mode = "usdt") :
    (getPriceDexScreener env raw sym mode).1 = best.priceUsd := by
  have hmode2 : toLowerStr mode ≠ "bnb" := by rw [hmode]; decide
  simp only [getPriceDexScreener, hfa, h, hp, if_pos hne, hsort,
    List.head?_cons, if_neg hmode2, if_pos hmode]
  rcases best.priceUsd with _ | p <;> rfl

lemma v3Stage_none_usdt {env : Env} {t sym mode : String}
    (hm : toLowerStr mode = "usdt")
    (h1 : (tryGetPriceV3 env t USDT).1 = none)
    (h2 : (tryGetPriceV3 env t WBNB).1 = none) :
    v3Stage env t sym mode =
      (none, (tryGetPriceV3 env t USDT).2 ++ (tryGetPriceV3 env t WBNB).2) := by
  simp only [v3Stage, if_pos hm, h1, h2]

lemma v3Stage_none_bnb {env : Env} {t sym mode : String}
    (hm : toLowerStr mode ≠ "usdt")
    (h2 : (tryGetPriceV3 env t WBNB).1 = none) :
    v3Stage env t sym mode = (none, (tryGetPriceV3 env t WBNB).2) := by
  simp only [v3Stage, if_neg hm, h2]

lemma afterV2_allFail {env : Env} {t sym mode : String}
    (hv3 : (v3Stage env t sym mode).1 = none)
    (hds : (getPriceDexScreener env t sym mode).1 = none) :
    afterV2 env t sym mode true =
      (Except.ok unresolvedResult,
       (v3Stage env t sym mode).2 ++ (getPriceDexScreener env t sym mode).2) := by
  simp only [afterV2, if_true, hv3, hds]

lemma mainFlow_v2_some {env : Env} {t mode : String} {f : Bool} {r : PriceResult}
    (hv2 : (v2Loop env t (getTokenInfo env t).1.symbol (getTokenInfo env t).1.decimals
      (pathsV2For t (quoteTokenOf mode))).1 = Except.ok (some r)) :
    mainFlow env t mode f =
      (Except.ok r,
       (getTokenInfo env t).2 ++ (v2Loop env t (getTokenInfo env t).1.symbol
         (getTokenInfo env t).1.decimals (pathsV2For t (quoteTokenOf mode))).2) := by
  simp only [mainFlow, hv2]

lemma mainFlow_v2_none {env : Env} {t mode : String} {f : Bool}
    (hv2 : (v2Loop env t (getTokenInfo env t).1.symbol (getTokenInfo env t).1.decimals
      (pathsV2For t (quoteTokenOf mode))).1 = Except.ok none) :
    mainFlow env t mode f =
      ((afterV2 env t (getTokenInfo env t).1.symbol mode f).1,
       (getTokenInfo env t).2 ++ (v2Loop env t (getTokenInfo env t).1.symbol
         (getTokenInfo env t).1.decimals (pathsV2For t (quoteTokenOf mode))).2 ++
         (afterV2 env t (getTokenInfo env t).1.symbol mode f).2) := by
  simp only [mainFlow, hv2]

lemma getTokenPrice_trace (env : Env) (raw mode : String) (f : Bool) :
    (getTokenPrice env raw mode f).2 = (getTokenPriceBody env raw mode f).2 := by
  simp only [getTokenPrice]
  split <;> rfl

lemma getTokenPrice_of_bodyOk {env : Env} {raw mode : String} {f : Bool}
    {r : PriceResult} (h : (getTokenPriceBody env raw mode f).1 = Except.ok r) :
    (getTokenPrice env raw mode f).1 = r := by
  simp only [getTokenPrice]
  rw [h]

/-- A sample non-special token address, in canonical form. -/
def TKA : String := "0x00000000000000000000000000000000000000aa"

/-- A sample V3 pool address, in canonical form. -/
def PoolB5 : String := "0x00000000000000000000000000000000000000b5"

/-- An environment in which every remote call fails: the router reverts,
the factory knows no pool, metadata reads fail, HTTP errors out. -/
def envFail : Env :=
  ⟨fun _ _ => none, fun _ => none, fun _ => none, fun _ => none,
   fun _ _ _ => ZeroAddress, fun _ => none, fun _ => HttpOutcome.netError,
   fun _ => none⟩

/-- C8: address normalization is idempotent and case-insensitive —
normalize(normalize x) = normalize x, every case-variant of the same bytes
normalizes to the same canonical output (in particular upper(x) and
lower(x)), and normalization fails exactly on inputs that are not
well-formed 20-byte hex strings.  (formatAddress wraps ethers.getAddress,
an external library, so the normalizer is modelled from the spec.) -/
theorem C8_normalization_idempotent_case_insensitive (x : String) :
    ((formatAddress x).isSome = wellFormedAddress x) ∧
    (∀ c, formatAddress x = some c → formatAddress c = some c) ∧
    (∀ y, x.data.map lcChar = y.data.map lcChar →
      formatAddress x = formatAddress y) ∧
    formatAddress (toUpperStr x) = formatAddress (toLowerStr x) := by
  have hmap : ∀ l : List Char, (l.map ucChar).map lcChar = (l.map lcChar).map lcChar := by
    intro l
    induction l with
    | nil => rfl
    | cons c tl ih => simp [lcChar_ucChar, lcChar_idem, ih]
  refine ⟨formatAddress_isSome x, fun c h => formatAddress_canonical h,
    fun y h => ?_, ?_⟩
  · unfold formatAddress
    rw [h]
  · unfold formatAddress
    show (addrCore ((x.data.map ucChar).map lcChar)).map _ =
      (addrCore ((x.data.map lcChar).map lcChar)).map _
    rw [hmap]

/-- Witness for C8 at a concrete mixed-case address. -/
theorem C8_witness :
    formatAddress "0xAbCdEf0123456789AbCdEf0123456789AbCdEf01" =
      some "0xabcdef0123456789abcdef0123456789abcdef01" ∧
    formatAddress "0xabcdef0123456789abcdef0123456789abcdef01" =
      some "0xabcdef0123456789abcdef0123456789abcdef01" ∧
    formatAddress (toUpperStr "0xAbCdEf0123456789AbCdEf0123456789AbCdEf01") =
      formatAddress (toLowerStr "0xAbCdEf0123456789AbCdEf0123456789AbCdEf01") := by
  refine ⟨by decide, ?_, ?_⟩
  · exact (C8_normalization_idempotent_case_insensitive
      "0xAbCdEf0123456789AbCdEf0123456789AbCdEf01").2.1 _ (by decide)
  · exact (C8_normalization_idempotent_case_insensitive
      "0xAbCdEf0123456789AbCdEf0123456789AbCdEf01").2.2.2

/-- C1 counterexample: on the malformed address "zz" the InvalidAddress
failure is raised inside getTokenPrice's try block, but getTokenPrice
itself returns the Unresolved sentinel record to its caller — the failure
is absorbed by the catch-all handler, not propagated as a hard error. -/
theorem C1_counterexample :
    getTokenPriceBody envFail "zz" "bnb" true =
      (Except.error ResolveError.invalidAddress, []) ∧
    getTokenPrice envFail "zz" "bnb" true = (unresolvedResult, []) := by
  constructor <;> rfl

/-- C1 (amended): for every malformed (non-20-byte-hex) input address, the
InvalidAddress failure raised by normalization inside getTokenPrice is
absorbed by the function's catch-all handler: the caller receives the
Unresolved sentinel {price:null, venue:null, path:null}, and no failure of
any kind escapes the top-level resolution. -/
theorem C1_invalid_address_absorbed (env : Env) (raw mode : String) (f : Bool)
    (h : formatAddress raw = none) :
    getTokenPriceBody env raw mode f =
      (Except.error ResolveError.invalidAddress, []) ∧
    getTokenPrice env raw mode f = (unresolvedResult, []) := by
  have hb : getTokenPriceBody env raw mode f =
      (Except.error ResolveError.invalidAddress, []) := by
    simp only [getTokenPriceBody, h]
  refine ⟨hb, ?_⟩
  simp only [getTokenPrice, hb]

/-- Witness for C1 (amended) at the concrete malformed input "zz". -/
theorem C1_witness :
    formatAddress "zz" = none ∧
    getTokenPrice envFail "zz" "usdt" false = (unresolvedResult, []) :=
  ⟨by decide, (C1_invalid_address_absorbed envFail "zz" "usdt" false (by decide)).2⟩

/-- C4: when the input resolves to the native wrapped token and the quote
currency is NATIVE (mode not "usdt"), getTokenPrice returns the identity
quote ("1", version "n/a" standing for IDENTITY, path ["WBNB"]) with an
empty remote-call trace. -/
theorem C4_identity_native (env : Env) (raw mode : String) (f : Bool)
    (h1 : formatAddress raw = some WBNB) (h2 : toLowerStr mode ≠ "usdt") :
    getTokenPrice env raw mode f =
      (⟨some (PriceVal.str "1"), some "n/a", some ["WBNB"]⟩, []) :=
  getTokenPrice_identity h1 h2

/-- Witness for C4 at the concrete WBNB address and mode "BNB". -/
theorem C4_witness :
    formatAddress "0xbb4CdB9CBd36B01bD1cBaEBF2De08d9173bc095c" = some WBNB ∧
    toLowerStr "BNB" ≠ "usdt" ∧
    getTokenPrice envFail "0xbb4CdB9CBd36B01bD1cBaEBF2De08d9173bc095c" "BNB" true =
      (⟨some (PriceVal.str "1"), some "n/a", some ["WBNB"]⟩, []) :=
  ⟨by decide, by decide,
   C4_identity_native envFail "0xbb4CdB9CBd36B01bD1cBaEBF2De08d9173bc095c" "BNB"
     true (by decide) (by decide)⟩

/-- C10: the quote-currency selector is a catch-all — every mode whose
lowercase form is not "usdt" selects the NATIVE quote (WBNB) without
rejecting the input (the candidate paths then all end in WBNB, and a WBNB
input still takes the identity branch); only a case-insensitive "usdt"
selects the STABLE quote (USDT). -/
theorem C10_quote_selector_catch_all (mode : String) :
    (quoteTokenOf mode = WBNB ↔ toLowerStr mode ≠ "usdt") ∧
    (quoteTokenOf mode = USDT ↔ toLowerStr mode = "usdt") ∧
    (toLowerStr mode ≠ "usdt" → ∀ t, pathsV2For t (quoteTokenOf mode) =
      [[t, WBNB], [t, WBNB, WBNB], [t, BUSD, WBNB], [t, USDC, WBNB]]) ∧
    (toLowerStr mode ≠ "usdt" → ∀ env raw f, formatAddress raw = some WBNB →
      getTokenPrice env raw mode f =
        (⟨some (PriceVal.str "1"), some "n/a", some ["WBNB"]⟩, [])) := by
  have hWU : WBNB ≠ USDT := by decide
  refine ⟨⟨fun h hm => ?_, fun hm => ?_⟩, ⟨fun h => ?_, fun hm => ?_⟩,
    fun hm t => ?_, fun hm env raw f h1 => getTokenPrice_identity h1 hm⟩
  · unfold quoteTokenOf at h
    rw [if_pos hm] at h
    exact hWU h.symm
  · unfold quoteTokenOf
    rw [if_neg hm]
  · by_contra hm
    unfold quoteTokenOf at h
    rw [if_neg hm] at h
    exact hWU h
  · unfold quoteTokenOf
    rw [if_pos hm]
  · unfold pathsV2For quoteTokenOf
    rw [if_neg hm]

/-- Witness for C10 at the concrete modes "xyz", "" and "UsDt". -/
theorem C10_witness :
    toLowerStr "xyz" ≠ "usdt" ∧ quoteTokenOf "xyz" = WBNB ∧
    quoteTokenOf "" = WBNB ∧ quoteTokenOf "UsDt" = USDT :=
  ⟨by decide, (C10_quote_selector_catch_all "xyz").1.mpr (by decide),
   (C10_quote_selector_catch_all "").1.mpr (by decide),
   (C10_quote_selector_catch_all "UsDt").2.1.mpr (by decide)⟩

/-- An environment whose V3 factory has a readable pool at the first fee
tier (100), with the sample token as the pool's token1. -/
def envC5 : Env :=
  { envFail with
    getPool := fun _ _ fee => if fee = 100 then PoolB5 else ZeroAddress,
    poolState := fun p => if p = PoolB5 then some ⟨WBNB, TKA, 3⟩ else none }

/-- C5: tick math — priceFromTick computes 1.0001^tick (modelled exactly
over ℚ); priceFromTick 0 = 1; inversion distributes as price(t, invert) =
1 / price(t, no-invert) exactly; and for a pool resolved by the V3 loop the
returned price is inverted precisely when the input token equals the
pool's token1. -/
theorem C5_tick_math :
    priceFromTick 0 false = 1 ∧
    (∀ t : Int, priceFromTick t true = 1 / priceFromTick t false) ∧
    (∀ (env : Env) (tIn tOut pool p : String) (st : PoolState)
      (rest : List Nat) (fee : Nat),
      env.getPool tIn tOut fee = pool → pool ≠ ZeroAddress →
      formatAddress pool = some p → env.poolState p = some st →
      (v3Loop env tIn tOut (fee :: rest)).1 =
        some (priceFromTick st.tick (tIn == st.token1)) ∧
      ((tIn == st.token1) = true ↔ tIn = st.token1)) := by
  refine ⟨by decide, fun t => rfl,
    fun env tIn tOut pool p st rest fee h hnz hfa hst => ?_⟩
  rw [v3Loop_cons_found h hnz hfa hst]
  exact ⟨rfl, beq_iff_eq⟩

/-- Witness for C5 at tick 3 with the input token as token1 (inverted). -/
theorem C5_witness :
    priceFromTick 0 false = 1 ∧
    priceFromTick 7 true = 1 / priceFromTick 7 false ∧
    (v3Loop envC5 TKA WBNB (100 :: [500, 2500, 10000])).1 =
      some (priceFromTick 3 (TKA == TKA)) := by
  refine ⟨C5_tick_math.1, C5_tick_math.2.1 7, ?_⟩
  exact (C5_tick_math.2.2 envC5 TKA WBNB PoolB5 PoolB5 ⟨WBNB, TKA, 3⟩
    [500, 2500, 10000] 100 (by decide) (by decide) (by decide) (by decide)).1

/-- C3 counterexample: the fee-tier list the code iterates is
[100, 500, 2500, 10000] in the factory's fee unit (hundredths of a basis
point) — not {1, 5, 25, 100} in that unit as the claim states; concretely,
the four factory probes issued for a pair carry fees 100, 500, 2500 and
10000, and no probe with fee 1, 5 or 25 is ever issued, with 100 probed
first rather than last. -/
theorem C3_counterexample :
    feeTiers = [100, 500, 2500, 10000] ∧ feeTiers ≠ [1, 5, 25, 100] ∧
    (tryGetPriceV3 envFail TKA USDT).2 =
      [Call.getPool TKA USDT 100, Call.getPool TKA USDT 500,
       Call.getPool TKA USDT 2500, Call.getPool TKA USDT 10000] ∧
    (∀ c ∈ (tryGetPriceV3 envFail TKA USDT).2, c ≠ Call.getPool TKA USDT 1) := by
  refine ⟨rfl, by decide, by decide, by decide⟩

/-- An environment whose V3 factory has no pool at tier 100 but a readable
pool at tier 500 and a (never-consulted) pool at tier 2500. -/
def envC3 : Env :=
  { envFail with
    getPool := fun _ _ fee =>
      if fee = 500 ∨ fee = 2500 then PoolB5 else ZeroAddress,
    poolState := fun p => if p = PoolB5 then some ⟨WBNB, TKA, 9⟩ else none }

/-- C3 (amended): V3 factory probing iterates the fixed ordered fee-tier
list [100, 500, 2500, 10000] (hundredths of a basis point, i.e. 0.01%,
0.05%, 0.25%, 1%) strictly in that order; a zero-address result at a tier
means no pool there and probing continues; the first non-zero, readable
pool wins with no comparison across tiers — given pools at tiers 500 and
2500, the tier-500 result is returned and tier 2500 is never probed. -/
theorem C3_fee_tier_probing (env : Env) (tIn tOut p5c : String) (st : PoolState)
    (h100 : env.getPool tIn tOut 100 = ZeroAddress)
    (h500 : env.getPool tIn tOut 500 ≠ ZeroAddress)
    (hfa : formatAddress (env.getPool tIn tOut 500) = some p5c)
    (hst : env.poolState p5c = some st) :
    feeTiers = [100, 500, 2500, 10000] ∧
    v3Loop env tIn tOut feeTiers =
      (some (priceFromTick st.tick (tIn == st.token1)),
       [Call.getPool tIn tOut 100, Call.getPool tIn tOut 500,
        Call.poolRead p5c]) ∧
    Call.getPool tIn tOut 2500 ∉ (v3Loop env tIn tOut feeTiers).2 := by
  have hrest : v3Loop env tIn tOut [500, 2500, 10000] =
      (some (priceFromTick st.tick (tIn == st.token1)),
       [Call.getPool tIn tOut 500, Call.poolRead p5c]) :=
    v3Loop_cons_found rfl h500 hfa hst
  have hloop : v3Loop env tIn tOut feeTiers =
      (some (priceFromTick st.tick (tIn == st.token1)),
       [Call.getPool tIn tOut 100, Call.getPool tIn tOut 500,
        Call.poolRead p5c]) := by
    show v3Loop env tIn tOut (100 :: [500, 2500, 10000]) = _
    rw [v3Loop_cons_zero h100, hrest]
  refine ⟨rfl, hloop, ?_⟩
  rw [hloop]
  simp

/-- Witness for C3 (amended): in envC3 the tier-500 pool is returned and
tier 2500 is never probed. -/
theorem C3_witness :
    envC3.getPool TKA WBNB 100 = ZeroAddress ∧
    envC3.getPool TKA WBNB 2500 ≠ ZeroAddress ∧
    (v3Loop envC3 TKA WBNB feeTiers).1 = some (priceFromTick 9 true) ∧
    Call.getPool TKA WBNB 2500 ∉ (v3Loop envC3 TKA WBNB feeTiers).2 := by
  have h := C3_fee_tier_probing envC3 TKA WBNB PoolB5 ⟨WBNB, TKA, 9⟩
    (by decide) (by decide) (by decide) (by decide)
  refine ⟨by decide, by decide, ?_, h.2.2⟩
  rw [h.2.1]
  show some (priceFromTick 9 (TKA == TKA)) = some (priceFromTick 9 true)
  rw [show (TKA == TKA) = true from by decide]

/-- An environment where the V2 router reverts on the direct path but
quotes the path through WBNB. -/
def envC2 : Env :=
  { envFail with
    router := fun amt p =>
      if p = [TKA, WBNB, USDT] then some [amt, 5, 7] else none }

/-- C2: the V2 probe tries exactly the four candidate paths
[input, quote], [input, WBNB, quote], [input, BUSD, quote],
[input, USDC, quote] in that fixed order regardless of the quote token; the
first candidate whose swap-quote succeeds determines the returned price
(its own quoted output — no cross-candidate comparison), NotFound (ok none)
results exactly when all four candidates fail, and a successful V2 probe's
record is what getTokenPrice returns. -/
theorem C2_v2_probe_first_match (env : Env) (t sym quote : String) (d : Nat) :
    (pathsV2For t quote =
      [[t, quote], [t, WBNB, quote], [t, BUSD, quote], [t, USDC, quote]]) ∧
    (∀ pre p post as q, pathsV2For t quote = pre ++ p :: post →
      (∀ p2 ∈ pre, env.router (parseUnitsOne d) p2 = none) →
      env.router (parseUnitsOne d) p = some as →
      as[p.length - 1]? = some q →
      (v2Loop env t sym d (pathsV2For t quote)).1 =
        Except.ok (some ⟨some (PriceVal.str (formatUnits q 18)), some "v2",
          some (pathSymbolsOf env t sym p).1⟩)) ∧
    ((∀ p ∈ pathsV2For t quote, env.router (parseUnitsOne d) p = none) →
      (v2Loop env t sym d (pathsV2For t quote)).1 = Except.ok none) ∧
    ((v2Loop env t sym d (pathsV2For t quote)).1 = Except.ok none →
      ∀ p ∈ pathsV2For t quote, env.router (parseUnitsOne d) p = none) ∧
    (∀ mode f raw r, formatAddress raw = some t → t ≠ WBNB →
      ¬(t = USDT ∧ toLowerStr mode = "bnb") →
      (v2Loop env t (getTokenInfo env t).1.symbol (getTokenInfo env t).1.decimals
        (pathsV2For t (quoteTokenOf mode))).1 = Except.ok (some r) →
      (getTokenPrice env raw mode f).1 = r) := by
  refine ⟨rfl,
    fun pre p post as q hsplit hpre hp hq => ?_,
    fun h => v2Loop_all_fail h,
    fun h => v2Loop_none_all_fail h,
    fun mode f raw r h1 h2 h3 hv2 => ?_⟩
  · rw [hsplit]
    exact v2Loop_first_success hp hq hpre
  · have hbody : (getTokenPriceBody env raw mode f).1 = Except.ok r := by
      rw [getTokenPriceBody_mainFlow h1 h2 h3, mainFlow_v2_some hv2]
    exact getTokenPrice_of_bodyOk hbody

/-- Witness for C2: the first candidate reverts, the second succeeds and
determines the price; the third and fourth are immaterial. -/
theorem C2_witness :
    envC2.router (parseUnitsOne 18) [TKA, USDT] = none ∧
    envC2.router (parseUnitsOne 18) [TKA, WBNB, USDT] =
      some [parseUnitsOne 18, 5, 7] ∧
    (v2Loop envC2 TKA "TK" 18 (pathsV2For TKA USDT)).1 =
      Except.ok (some ⟨some (PriceVal.str (formatUnits 7 18)), some "v2",
        some (pathSymbolsOf envC2 TKA "TK" [TKA, WBNB, USDT]).1⟩) := by
  refine ⟨by decide, by decide, ?_⟩
  exact (C2_v2_probe_first_match envC2 TKA "TK" USDT 18).2.1
    [[TKA, USDT]] [TKA, WBNB, USDT] [[TKA, BUSD, USDT], [TKA, USDC, USDT]]
    [parseUnitsOne 18, 5, 7] 7 (by decide) (by decide) (by decide) (by decide)

lemma mainFlow_trace (env : Env) (t mode : String) (f : Bool) :
    ∃ tail, (mainFlow env t mode f).2 =
      (getTokenInfo env t).2 ++
        (v2Loop env t (getTokenInfo env t).1.symbol (getTokenInfo env t).1.decimals
          (pathsV2For t (quoteTokenOf mode))).2 ++ tail := by
  simp only [mainFlow]
  split
  · exact ⟨[], by simp⟩
  · exact ⟨[], by simp⟩
  · exact ⟨_, rfl⟩

/-- C7: if any of the three metadata reads fails, the descriptor returned
is exactly {symbol:"UNKNOWN", name:"Unknown Token", decimals:18} (no error
propagates — getTokenInfo is total), and price resolution proceeds: the
first V2 probe after the three metadata reads uses the 18-decimal unit
amount 10^18. -/
theorem C7_metadata_degradation (env : Env) :
    (∀ raw a, formatAddress raw = some a →
      (env.tokenSymbol a = none ∨ env.tokenName a = none ∨
        env.tokenDecimals a = none) →
      (getTokenInfo env raw).1 = ⟨"UNKNOWN", "Unknown Token", 18⟩) ∧
    (∀ raw t mode f, formatAddress raw = some t → t ≠ WBNB →
      ¬(t = USDT ∧ toLowerStr mode = "bnb") → env.tokenDecimals t = none →
      (getTokenPrice env raw mode f).2.take 4 =
        [Call.symbolRead t, Call.nameRead t, Call.decimalsRead t,
         Call.getAmountsOut (parseUnitsOne 18) [t, quoteTokenOf mode]]) := by
  refine ⟨fun raw a hfa h => getTokenInfo_default hfa h,
    fun raw t mode f h1 h2 h3 hd => ?_⟩
  have hcanon : formatAddress t = some t := formatAddress_canonical h1
  have hinfo : (getTokenInfo env t).1 = ⟨"UNKNOWN", "Unknown Token", 18⟩ :=
    getTokenInfo_default hcanon (Or.inr (Or.inr hd))
  have hcalls : (getTokenInfo env t).2 =
      [Call.symbolRead t, Call.nameRead t, Call.decimalsRead t] :=
    getTokenInfo_calls hcanon
  rw [getTokenPrice_trace, getTokenPriceBody_mainFlow h1 h2 h3]
  obtain ⟨tail, htr⟩ := mainFlow_trace env t mode f
  obtain ⟨vtail, hv⟩ :=
    (v2Loop_trace_cons :
      ∃ tl, (v2Loop env t (getTokenInfo env t).1.symbol
        (getTokenInfo env t).1.decimals ([t, quoteTokenOf mode] ::
          [[t, WBNB, quoteTokenOf mode], [t, BUSD, quoteTokenOf mode],
           [t, USDC, quoteTokenOf mode]])).2 =
        Call.getAmountsOut (parseUnitsOne (getTokenInfo env t).1.decimals)
          [t, quoteTokenOf mode] :: tl)
  rw [htr]
  rw [show pathsV2For t (quoteTokenOf mode) = [t, quoteTokenOf mode] ::
    [[t, WBNB, quoteTokenOf mode], [t, BUSD, quoteTokenOf mode],
     [t, USDC, quoteTokenOf mode]] from rfl]
  rw [hv, hcalls, hinfo]
  rfl

/-- Witness for C7: in an environment with failing metadata reads the
default descriptor is returned and the V2 probe proceeds with 10^18. -/
theorem C7_witness :
    (getTokenInfo envFail TKA).1 = ⟨"UNKNOWN", "Unknown Token", 18⟩ ∧
    (getTokenPrice envFail TKA "bnb" true).2.take 4 =
      [Call.symbolRead TKA, Call.nameRead TKA, Call.decimalsRead TKA,
       Call.getAmountsOut (parseUnitsOne 18) [TKA, quoteTokenOf "bnb"]] :=
  ⟨(C7_metadata_degradation envFail).1 TKA TKA (by decide) (Or.inl rfl),
   (C7_metadata_degradation envFail).2 TKA TKA "bnb" true (by decide)
     (by decide) (by decide) rfl⟩

/-- An environment where every tier fails and the aggregator answers with
an empty pair collection. -/
def envC6 : Env :=
  { envFail with
    http := fun _ => HttpOutcome.response 200 "emptyPairs",
    parseDex := fun _ => some ⟨some []⟩ }

/-- C6: when the V2 probe has no liquidity on any candidate, the V3
factory knows no pool at any tier, and the aggregator response is an empty
collection, getTokenPrice returns the Unresolved sentinel record
{price:null, venue:null, path:null} — an ordinary return value, not a
raised error. -/
theorem C6_full_failure_unresolved (env : Env) (raw t mode : String)
    (h1 : formatAddress raw = some t) (h2 : t ≠ WBNB)
    (h3 : ¬(t = USDT ∧ toLowerStr mode = "bnb"))
    (hr : ∀ amt p, env.router amt p = none)
    (hg : ∀ a b fee, env.getPool a b fee = ZeroAddress)
    (hb : ∃ body, env.http (dexScreenerUrl t) = HttpOutcome.response 200 body ∧
      env.parseDex body = some ⟨some []⟩) :
    (getTokenPriceBody env raw mode true).1 = Except.ok unresolvedResult ∧
    (getTokenPrice env raw mode true).1 = unresolvedResult := by
  have hcanon : formatAddress t = some t := formatAddress_canonical h1
  have hfaW : formatAddress WBNB = some WBNB := by decide
  have hfaU : formatAddress USDT = some USDT := by decide
  have hv2 : (v2Loop env t (getTokenInfo env t).1.symbol
      (getTokenInfo env t).1.decimals
      (pathsV2For t (quoteTokenOf mode))).1 = Except.ok none :=
    v2Loop_all_fail (fun p _ => hr _ p)
  have hv3TU : (tryGetPriceV3 env t USDT).1 = none := by
    rw [tryGetPriceV3_canon hcanon hfaU]
    exact v3Loop_all_zero (fun fee _ => hg _ _ fee)
  have hv3TW : (tryGetPriceV3 env t WBNB).1 = none := by
    rw [tryGetPriceV3_canon hcanon hfaW]
    exact v3Loop_all_zero (fun fee _ => hg _ _ fee)
  have hv3 : (v3Stage env t (getTokenInfo env t).1.symbol mode).1 = none := by
    by_cases hm : toLowerStr mode = "usdt"
    · rw [v3Stage_none_usdt hm hv3TU hv3TW]
    · rw [v3Stage_none_bnb hm hv3TW]
  obtain ⟨body, hhttp, hparse⟩ := hb
  have hfetch : fetchAPI env (dexScreenerUrl t) = Except.ok ⟨some []⟩ := by
    simp [fetchAPI, hhttp, hparse]
  have hds : (getPriceDexScreener env t (getTokenInfo env t).1.symbol mode).1 =
      none := by
    rw [getPriceDexScreener_emptyPairs hcanon hfetch rfl]
  have hbody : (getTokenPriceBody env raw mode true).1 =
      Except.ok unresolvedResult := by
    rw [getTokenPriceBody_mainFlow h1 h2 h3, mainFlow_v2_none hv2,
      afterV2_allFail hv3 hds]
  exact ⟨hbody, getTokenPrice_of_bodyOk hbody⟩

/-- Witness for C6 in the concrete all-failing environment. -/
theorem C6_witness :
    (getTokenPrice envC6 TKA "bnb" true).1 = unresolvedResult :=
  (C6_full_failure_unresolved envC6 TKA TKA "bnb" (by decide) (by decide)
    (by decide) (fun _ _ => rfl) (fun _ _ _ => rfl)
    ⟨"emptyPairs", rfl, rfl⟩).2

/-- C9: the aggregator client sorts the pair records descending by
liquidity (missing liquidity counts as zero, so the selected record's
liquidity is maximal), takes the single top record, and returns its native
or USD price field per the requested mode; it yields NotFound (none) when
the fetch rejects for any reason — non-200 status, unparsable body,
timeout, network error — or when the collection is absent or empty, or the
top record lacks the requested field (then `best.priceNative`/`priceUsd`
is itself none).  The fetch uses the fixed 5000 ms timeout. -/
theorem C9_aggregator_selection (env : Env) (raw a sym mode : String)
    (hfa : formatAddress raw = some a) :
    REQUEST_TIMEOUT_MS = 5000 ∧
    (∀ e, fetchAPI env (dexScreenerUrl a) = Except.error e →
      (getPriceDexScreener env raw sym mode).1 = none) ∧
    (∀ status body, env.http (dexScreenerUrl a) = HttpOutcome.response status body →
      status ≠ 200 → (getPriceDexScreener env raw sym mode).1 = none) ∧
    (∀ body, env.http (dexScreenerUrl a) = HttpOutcome.response 200 body →
      env.parseDex body = none → (getPriceDexScreener env raw sym mode).1 = none) ∧
    (env.http (dexScreenerUrl a) = HttpOutcome.timedOut →
      (getPriceDexScreener env raw sym mode).1 = none) ∧
    (∀ d, fetchAPI env (dexScreenerUrl a) = Except.ok d → d.pairs = some [] →
      (getPriceDexScreener env raw sym mode).1 = none) ∧
    (∀ d l best tl, fetchAPI env (dexScreenerUrl a) = Except.ok d →
      d.pairs = some l → List.insertionSort liqGE l = best :: tl →
      best ∈ l ∧ (∀ p ∈ l, liqOf p ≤ liqOf best) ∧
      (toLowerStr mode = "bnb" →
        (getPriceDexScreener env raw sym mode).1 = best.priceNative) ∧
      (toLowerStr mode = "usdt" →
        (getPriceDexScreener env raw sym mode).1 = best.priceUsd)) := by
  refine ⟨rfl, fun e he => ?_, fun status body hh hs => ?_,
    fun body hh hp => ?_, fun hh => ?_, fun d hok hp => ?_,
    fun d l best tl hok hp hsort => ?_⟩
  · rw [getPriceDexScreener_fetchFail hfa he]
  · have he : fetchAPI env (dexScreenerUrl a) =
        Except.error (FetchErr.badStatus status) := by
      simp only [fetchAPI, hh]
      rw [if_pos hs]
    rw [getPriceDexScreener_fetchFail hfa he]
  · have he : fetchAPI env (dexScreenerUrl a) =
        Except.error FetchErr.parseFailure := by
      simp [fetchAPI, hh, hp]
    rw [getPriceDexScreener_fetchFail hfa he]
  · have he : fetchAPI env (dexScreenerUrl a) = Except.error FetchErr.timeout := by
      simp [fetchAPI, hh]
    rw [getPriceDexScreener_fetchFail hfa he]
  · rw [getPriceDexScreener_emptyPairs hfa hok hp]
  · have hmax := insertionSort_head_max hsort
    have hlen : 0 < l.length := by
      have hperm := List.perm_insertionSort liqGE l
      rw [hsort] at hperm
      have hl := hperm.length_eq
      simp only [List.length_cons] at hl
      omega
    exact ⟨hmax.1, hmax.2,
      fun hm => getPriceDexScreener_bnb hfa hok hp hlen hsort hm,
      fun hm => getPriceDexScreener_usdt hfa hok hp hlen hsort hm⟩

/-- A pair with no liquidity figure (treated as zero). -/
def pairNoLiq : DexPair := ⟨none, some "0.05", some "0.9"⟩

/-- A pair with low liquidity. -/
def pairLow : DexPair := ⟨some 5, some "0.1", some "1.5"⟩

/-- A pair with the highest liquidity. -/
def pairHigh : DexPair := ⟨some 10, some "0.2", some "3.0"⟩

/-- An environment whose aggregator responds with three pairs in
ascending-liquidity order. -/
def envC9 : Env :=
  { envFail with
    http := fun _ => HttpOutcome.response 200 "ok",
    parseDex := fun _ => some ⟨some [pairNoLiq, pairLow, pairHigh]⟩ }

/-- An environment whose aggregator call times out. -/
def envC9T : Env :=
  { envFail with http := fun _ => HttpOutcome.timedOut }

/-- Witness for C9: the highest-liquidity pair's native price is returned;
a timed-out call yields none. -/
theorem C9_witness :
    List.insertionSort liqGE [pairNoLiq, pairLow, pairHigh] =
      [pairHigh, pairLow, pairNoLiq] ∧
    (getPriceDexScreener envC9 TKA "S" "bnb").1 = some "0.2" ∧
    (getPriceDexScreener envC9T TKA "S" "bnb").1 = none := by
  refine ⟨by decide, ?_,
    (C9_aggregator_selection envC9T TKA TKA "S" "bnb" (by decide)).2.2.2.2.1 rfl⟩
  have h7 := (C9_aggregator_selection envC9 TKA TKA "S" "bnb" (by decide)).2.2.2.2.2.2
    ⟨some [pairNoLiq, pairLow, pairHigh]⟩ [pairNoLiq, pairLow, pairHigh]
    pairHigh [pairLow, pairNoLiq] rfl rfl (by decide)
  rw [h7.2.2.1 rfl]
  rfl

end TokenPrice
